import Mathlib

/-
Verification of the elfo actor-runtime core against its specification.

The definitions below are a shallow embedding of the Rust sources:
  - src/elfo-core/src/context.rs    (Context: send, respond, pruned, requests)
  - src/elfo-core/src/supervisor.rs (Supervisor: handle, do_handle, spawn)
  - src/elfo-network/src/discovery/mod.rs (discovery handshake, infer_connections)

Pure functions are translated directly; stateful code is modelled by
explicit state passing (the address book, the supervisor object map and
the config lock become record fields threaded through the functions).
Nondeterministic environment behaviour (whether a mailbox accepts a
message, whether an envelope can be duplicated) is modelled by explicit
oracle parameters, so every definition stays executable.
-/

set_option autoImplicit false

namespace Elfo

/-- Opaque actor address (`Addr` in `addr.rs`); `Addr::NULL` is 0. -/
abbrev Addr := Nat

/-- The distinguished null address (`Addr::NULL`). -/
def Addr.null : Addr := 0

/-! ## Discovery: group info and `infer_connections`
    (src/elfo-network/src/discovery/mod.rs, lines 469-478) -/

/-- Group descriptor exchanged during the handshake
    (`internode::GroupInfo`): number, name and interests. -/
structure GroupInfo where
  group_no : Nat
  name : String
  interests : List String
  deriving DecidableEq, Repr

/-- Embedding of `infer_connections(one, two)`: for each group `o` of
    `one` and each group `t` of `two` whose name is contained in
    `o.interests`, yield the pair `(o.group_no, t.group_no)`. -/
def infer_connections (one two : List GroupInfo) : List (Nat × Nat) :=
  one.flatMap fun o =>
    (two.filter fun t => decide (t.name ∈ o.interests)).map fun t =>
      (o.group_no, t.group_no)

/-- The local group of the discovery scenario: `{1, "a", {"b"}}`. -/
def groupA : GroupInfo := ⟨1, "a", ["b"]⟩

/-- The remote group of the discovery scenario: `{2, "b", {"a"}}`. -/
def groupB : GroupInfo := ⟨2, "b", ["a"]⟩

/-- Claim C7: `infer_connections(one, two)` yields exactly the pairs
    `(a.group_no, b.group_no)` with `a` in `one`, `b` in `two` and
    `b.name` among `a.interests`; combining both directions on the
    scenario groups `{1,"a",{"b"}}` and `{2,"b",{"a"}}` yields the set
    `{(1,2),(2,1)}`. -/
theorem c7_infer_connections (one two : List GroupInfo) (p : Nat × Nat) :
    (p ∈ infer_connections one two ↔
      ∃ a ∈ one, ∃ b ∈ two, b.name ∈ a.interests ∧ p = (a.group_no, b.group_no)) ∧
    (infer_connections [groupA] [groupB] ++ infer_connections [groupB] [groupA]
      = [(1, 2), (2, 1)]) := by
  constructor
  · simp only [infer_connections, List.mem_flatMap, List.mem_map, List.mem_filter,
      decide_eq_true_eq]
    constructor
    · rintro ⟨o, ho, t, ⟨ht, hint⟩, hp⟩
      exact ⟨o, ho, t, ht, hint, hp.symm⟩
    · rintro ⟨a, ha, b, hb, hint, hp⟩
      exact ⟨a, ha, b, ⟨hb, hint⟩, hp.symm⟩
  · decide

/-! ## Context: the `pruned` operation
    (src/elfo-core/src/context.rs, lines 371-383) -/

/-- The singleton router key (`routers::Singleton`). -/
inductive Singleton where
  | singleton
  deriving DecidableEq, Repr

/-- Per-context metric accumulators (`stats::Stats`); `Stats::default()`
    is the zero state. -/
structure Stats where
  samples : Nat
  deriving DecidableEq, Repr

instance : Inhabited Stats := ⟨⟨0⟩⟩

/-- Shallow state of `Context<C, K, S>` (context.rs, lines 34-44).
    The address book, dumper and demux are shared handles; they are
    modelled as opaque identifiers so that "carried over" is a plain
    equality of fields. -/
structure Context (C K S : Type) where
  book : Nat
  dumper : Nat
  addr : Addr
  group : Addr
  demux : Nat
  config : C
  key : K
  source : S
  stats : Stats
  deriving DecidableEq, Repr

/-- Embedding of `Context::pruned` (context.rs, lines 371-383): keeps
    the book, dumper, addr, group and demux of the original context and
    resets config to `()`, key to `Singleton`, source to `()` and stats
    to the default. -/
def Context.pruned {C K S : Type} (ctx : Context C K S) : Context Unit Singleton Unit :=
  { book := ctx.book
    dumper := ctx.dumper
    addr := ctx.addr
    group := ctx.group
    demux := ctx.demux
    config := ()
    key := Singleton.singleton
    source := ()
    stats := default }

/-- A concrete context whose every field differs from the blank values. -/
def sampleCtx : Context Nat Nat Nat :=
  { book := 1, dumper := 2, addr := 7, group := 8, demux := 5,
    config := 3, key := 4, source := 6, stats := ⟨9⟩ }

/-- Claim C9 counterexample: `pruned` does not carry over only the book
    and dumper handles — on a concrete context with non-null addr,
    group and demux, all three are carried over unchanged into the
    pruned context, contradicting "all other state of the original
    context is not carried over". -/
theorem c9_counterexample :
    (Context.pruned sampleCtx).addr = sampleCtx.addr ∧ sampleCtx.addr ≠ Addr.null ∧
    (Context.pruned sampleCtx).group = sampleCtx.group ∧ sampleCtx.group ≠ Addr.null ∧
    (Context.pruned sampleCtx).demux = sampleCtx.demux ∧ sampleCtx.demux ≠ 0 := by
  decide

/-- Claim C9 (amended): `pruned` produces a context that carries over
    the address book, dumper, addr, group and demux of the original and
    resets configuration to `()`, key to `Singleton`, sources to `()`
    and stats to their default; nothing else of the original is kept. -/
theorem c9_pruned {C K S : Type} (ctx : Context C K S) :
    (Context.pruned ctx).book = ctx.book ∧
    (Context.pruned ctx).dumper = ctx.dumper ∧
    (Context.pruned ctx).addr = ctx.addr ∧
    (Context.pruned ctx).group = ctx.group ∧
    (Context.pruned ctx).demux = ctx.demux ∧
    (Context.pruned ctx).config = () ∧
    (Context.pruned ctx).key = Singleton.singleton ∧
    (Context.pruned ctx).source = () ∧
    (Context.pruned ctx).stats = default :=
  ⟨rfl, rfl, rfl, rfl, rfl, rfl, rfl, rfl, rfl⟩

/-! ## Discovery: the role handshake of `accept_connection`
    (src/elfo-network/src/discovery/mod.rs, lines 408-457) -/

/-- `internode::SwitchToControl`: the first envelope of a control
    handshake, carrying this node's groups. -/
structure SwitchToControl where
  groups : List GroupInfo
  deriving DecidableEq, Repr

/-- `internode::SwitchToData`: the first envelope of a data handshake. -/
structure SwitchToData where
  my_group_no : Nat
  your_group_no : Nat
  initial_window : Int
  deriving DecidableEq, Repr

/-- The first application message read on a fresh socket: one of the
    two switch requests, or any other message identified by its name. -/
inductive NetMsg where
  | switchToControl (m : SwitchToControl)
  | switchToData (m : SwitchToData)
  | otherMsg (name : String)
  deriving DecidableEq, Repr

/-- `message().name()` of a received envelope. -/
def NetMsg.msgName : NetMsg → String
  | .switchToControl _ => "SwitchToControl"
  | .switchToData _ => "SwitchToData"
  | .otherMsg n => n

/-- `ConnectionRole` of discovery (Unknown only before the handshake). -/
inductive ConnectionRole where
  | unknown
  | control (m : SwitchToControl)
  | data (m : SwitchToData)
  deriving DecidableEq, Repr

/-- `NodeInfo` of the node map: node number, launch id and groups. -/
structure NodeInfo where
  node_no : Nat
  launch_id : Nat
  groups : List GroupInfo
  deriving DecidableEq, Repr

/-- `INITIAL_WINDOW_SIZE` (discovery/mod.rs, line 26). -/
def INITIAL_WINDOW_SIZE : Int := 100000

/-- Embedding of `unexpected_message_error` (discovery/mod.rs, lines
    535-541): formats the offending name and the allowed set. -/
def unexpected_message_error (name : String) (expected : List String) : String :=
  "unexpected message: " ++ name ++ ", expected: " ++ String.intercalate " or " expected

/-- Embedding of the `ConnectionRole::Unknown` arm of
    `accept_connection` (discovery/mod.rs, lines 414-439): given the
    single envelope read from the socket, produce the reply written
    back and the resulting role, or the rejection error. Socket I/O is
    abstracted away: the read envelope is the argument and the written
    reply is the first component of the result. -/
def accept_connection_unknown (thisNode : NodeInfo) (received : NetMsg) :
    Except String (NetMsg × ConnectionRole) :=
  match received with
  | .switchToControl m =>
    .ok (.switchToControl ⟨thisNode.groups⟩, .control m)
  | .switchToData m =>
    .ok (.switchToData ⟨m.your_group_no, m.my_group_no, INITIAL_WINDOW_SIZE⟩, .data m)
  | .otherMsg n =>
    .error (unexpected_message_error n ["SwitchToControl", "SwitchToData"])

/-- Claim C6: with role Unknown, a received `SwitchToControl` is
    answered by our own `SwitchToControl` carrying this node's groups
    and commits to the Control role; a received `SwitchToData` is
    answered by a `SwitchToData` whose group numbers are the received
    ones swapped plus the initial window, committing to the Data role;
    anything else fails naming the allowed set. -/
theorem c6_accept_connection (thisNode : NodeInfo) (mc : SwitchToControl)
    (md : SwitchToData) (nm : String) :
    accept_connection_unknown thisNode (.switchToControl mc)
      = .ok (.switchToControl ⟨thisNode.groups⟩, .control mc) ∧
    accept_connection_unknown thisNode (.switchToData md)
      = .ok (.switchToData ⟨md.your_group_no, md.my_group_no, 100000⟩, .data md) ∧
    accept_connection_unknown thisNode (.otherMsg nm)
      = .error ("unexpected message: " ++ nm
          ++ (", expected: " ++ "SwitchToControl or SwitchToData")) := by
  have h : String.intercalate " or " ["SwitchToControl", "SwitchToData"]
      = "SwitchToControl or SwitchToData" := rfl
  refine ⟨rfl, rfl, ?_⟩
  simp [accept_connection_unknown, unexpected_message_error, h, String.append_assoc]

/-! ## Context: `respond`
    (src/elfo-core/src/context.rs, lines 223-243) -/

/-- `ResponseToken` data (request_table.rs interface as used by
    context.rs): forgotten flag, the requester's address (`sender`) and
    the request id. -/
structure ResponseToken where
  forgotten : Bool
  sender : Addr
  request_id : Nat
  deriving DecidableEq, Repr

/-- The wrapped response message (`R::Wrapper::from(message)`). -/
inductive Wrapped (β : Type) where
  | wrap (message : β)
  deriving DecidableEq, Repr

/-- The envelope deposited by `respond`: the wrapped payload plus its
    `MessageKind::Regular { sender }`. -/
structure RespEnvelope (β : Type) where
  payload : Wrapped β
  kindSender : Addr
  deriving DecidableEq, Repr

/-- A live actor entry of the address book as seen by `respond`: its
    request table, modelled as the list of deposited responses. -/
structure ActorEntry (β : Type) where
  table : List (Nat × RespEnvelope β)
  deriving DecidableEq, Repr

/-- An address book object: a local actor, or any other object kind
    (group or remote proxy), for which `as_actor()` fails. -/
inductive BookObject (β : Type) where
  | actorObj (a : ActorEntry β)
  | otherObj
  deriving DecidableEq, Repr

/-- The address book as seen by `respond`: a partial map from
    addresses to objects. -/
structure Book (β : Type) where
  entries : Addr → Option (BookObject β)

/-- Embedding of `Context::respond` (context.rs, lines 223-243): a
    forgotten token is dropped silently; otherwise the response is
    wrapped, given Regular kind with sender equal to the token's
    sender, and deposited into the requester's request table; when the
    requester is gone (or is not an actor) the token is consumed and
    the envelope discarded. The function is total: it cannot fail. -/
def respond {β : Type} (book : Book β) (token : ResponseToken) (message : β) : Book β :=
  if token.forgotten then book
  else
    match book.entries token.sender with
    | none => book
    | some .otherObj => book
    | some (.actorObj actor) =>
      ⟨fun a =>
        if a = token.sender then
          some (.actorObj ⟨actor.table ++ [(token.request_id, ⟨.wrap message, token.sender⟩)]⟩)
        else book.entries a⟩

/-- Claim C8: `respond` on a forgotten token returns without any
    effect; on a live token it deposits the wrapped response, with
    Regular kind whose sender is the token's sender, into the
    requester's request table under the token's request id, leaving
    every other address untouched; and when the requester no longer
    exists (or is not an actor) it still does not fail — the book is
    returned unchanged and the envelope is discarded. -/
theorem c8_respond {β : Type} (book : Book β) (token : ResponseToken) (message : β) :
    (token.forgotten = true → respond book token message = book) ∧
    (book.entries token.sender = none → respond book token message = book) ∧
    (book.entries token.sender = some .otherObj → respond book token message = book) ∧
    (∀ actor : ActorEntry β, token.forgotten = false →
      book.entries token.sender = some (.actorObj actor) →
      (respond book token message).entries token.sender
        = some (.actorObj ⟨actor.table
            ++ [(token.request_id, ⟨.wrap message, token.sender⟩)]⟩) ∧
      ∀ a : Addr, a ≠ token.sender →
        (respond book token message).entries a = book.entries a) := by
  refine ⟨fun hf => ?_, fun hn => ?_, fun ho => ?_, fun actor hf ha => ⟨?_, fun a hane => ?_⟩⟩
  · simp [respond, hf]
  · unfold respond
    cases hft : token.forgotten <;> simp [hn]
  · unfold respond
    cases hft : token.forgotten <;> simp [ho]
  · simp [respond, hf, ha]
  · simp [respond, hf, ha, hane]

/-- Claim C8 witness: a concrete live token deposited into a concrete
    one-actor book, and a forgotten token on the same book. -/
theorem c8_respond_witness :
    (Book.mk (β := Nat) (fun a => if a = 3 then some (.actorObj ⟨[]⟩) else none)).entries 3
      = some (.actorObj ⟨[]⟩) ∧
    (respond (Book.mk (β := Nat) (fun a => if a = 3 then some (.actorObj ⟨[]⟩) else none))
        ⟨false, 3, 11⟩ 42).entries 3
      = some (.actorObj ⟨[(11, ⟨.wrap 42, 3⟩)]⟩) := by
  refine ⟨by simp, ?_⟩
  exact ((c8_respond (Book.mk (fun a => if a = 3 then some (.actorObj ⟨[]⟩) else none))
    ⟨false, 3, 11⟩ 42).2.2.2 ⟨[]⟩ rfl (by simp)).1

/-! ## Context: `do_send`
    (src/elfo-core/src/context.rs, lines 115-165) -/

/-- `SendError(msg)` (errors.rs): the closed error carrying back the
    message. -/
inductive SendErr (α : Type) where
  | closed (msg : α)
  deriving DecidableEq, Repr

/-- The environment of one `do_send` call: for each address, whether
    `book.get_owned` finds an object (`present`) and whether
    `object.send` then delivers (`deliverOk`; a false means the mailbox
    rejected with a closed error returning the envelope). -/
structure SendWorld where
  present : Addr → Bool
  deliverOk : Addr → Bool

/-- State of the multi-recipient loop of `do_send` (context.rs, lines
    140-158): the leftover envelope of a failed delivery, the addresses
    successfully delivered to, the number of clones made so far and
    whether a `duplicate` call failed (breaking the loop). -/
structure ManyState (α : Type) where
  unused : Option α
  deliveries : List Addr
  clones : Nat
  dupFailed : Bool
  deriving DecidableEq, Repr

/-- Embedding of the `for addr in addrs` loop of `do_send` (context.rs,
    lines 145-158). `dup i` tells whether the i-th `duplicate` call
    succeeds (it clones the envelope value unchanged); a leftover
    envelope from a failed delivery is taken in preference to cloning. -/
def doSendLoop {α : Type} (w : SendWorld) (dup : Nat → Bool) (env : α) :
    List Addr → ManyState α → ManyState α
  | [], st => st
  | addr :: rest, st =>
    match st.unused with
    | some e =>
      if w.present addr then
        if w.deliverOk addr then
          doSendLoop w dup env rest
            { st with unused := none, deliveries := st.deliveries ++ [addr] }
        else
          doSendLoop w dup env rest { st with unused := some e }
      else
        doSendLoop w dup env rest { st with unused := some e }
    | none =>
      if dup st.clones then
        let st1 : ManyState α := { st with clones := st.clones + 1 }
        if w.present addr then
          if w.deliverOk addr then
            doSendLoop w dup env rest
              { st1 with unused := none, deliveries := st1.deliveries ++ [addr] }
          else
            doSendLoop w dup env rest { st1 with unused := some env }
        else
          doSendLoop w dup env rest { st1 with unused := some env }
      else
        { st with dupFailed := true }

/-- The initial loop state: no leftover, no delivery, no clone. -/
def initManyState {α : Type} : ManyState α := ⟨none, [], 0, false⟩

/-- Embedding of `Context::do_send` after the demux ran (context.rs,
    lines 123-165): `addrs` is the recipient set produced by
    `demux.filter`. Empty set: closed error with the original message.
    One recipient: a single direct delivery. Many: the duplication
    loop; the call is Ok exactly when the loop delivered at least once,
    otherwise the closed error carries the original message. -/
def do_send {α : Type} (w : SendWorld) (dup : Nat → Bool) (msg : α) :
    List Addr → Except (SendErr α) Unit
  | [] => .error (.closed msg)
  | [addr] =>
    if w.present addr then
      if w.deliverOk addr then .ok () else .error (.closed msg)
    else .error (.closed msg)
  | a :: b :: rest =>
    let st := doSendLoop w dup msg (a :: b :: rest) initManyState
    if st.deliveries.isEmpty then .error (.closed msg) else .ok ()

/-- Count of a leftover envelope: 1 when present. -/
def leftoverCount {α : Type} (st : ManyState α) : Nat :=
  if st.unused.isSome then 1 else 0

theorem doSendLoop_clones {α : Type} (w : SendWorld) (dup : Nat → Bool) (env : α)
    (addrs : List Addr) (st : ManyState α)
    (h : st.clones = st.deliveries.length + leftoverCount st) :
    (doSendLoop w dup env addrs st).clones
      = (doSendLoop w dup env addrs st).deliveries.length
          + leftoverCount (doSendLoop w dup env addrs st) := by
  induction addrs generalizing st with
  | nil => simpa [doSendLoop] using h
  | cons addr rest ih =>
    cases hu : st.unused with
    | some e =>
      by_cases hp : w.present addr = true
      · by_cases hd : w.deliverOk addr = true
        · simp only [doSendLoop, hu, hp, hd, if_true]
          exact ih _ (by simp_all [leftoverCount])
        · simp only [doSendLoop, hu, hp, if_true, hd, if_false]
          exact ih _ (by simp_all [leftoverCount])
      · simp only [doSendLoop, hu, hp, if_false]
        exact ih _ (by simp_all [leftoverCount])
    | none =>
      by_cases hdup : dup st.clones = true
      · by_cases hp : w.present addr = true
        · by_cases hd : w.deliverOk addr = true
          · simp only [doSendLoop, hu, hdup, hp, hd, if_true]
            exact ih _ (by simp_all [leftoverCount])
          · simp only [doSendLoop, hu, hdup, hp, if_true, hd, if_false]
            exact ih _ (by simp_all [leftoverCount])
        · simp only [doSendLoop, hu, hdup, if_true, hp, if_false]
          exact ih _ (by simp_all [leftoverCount])
      · simp only [doSendLoop, hu, hdup, if_false]
        simpa [leftoverCount, hu] using h

theorem doSendLoop_deliveries_dup_true {α : Type} (w : SendWorld) (env : α)
    (addrs : List Addr) (st : ManyState α) :
    (doSendLoop w (fun _ => true) env addrs st).deliveries
      = st.deliveries ++ addrs.filter (fun a => w.present a && w.deliverOk a) := by
  induction addrs generalizing st with
  | nil => simp [doSendLoop]
  | cons addr rest ih =>
    cases hu : st.unused with
    | some e =>
      by_cases hp : w.present addr = true
      · by_cases hd : w.deliverOk addr = true
        · simp [doSendLoop, hu, hp, hd, ih, List.filter_cons]
        · simp [doSendLoop, hu, hp, hd, ih, List.filter_cons]
      · simp [doSendLoop, hu, hp, ih, List.filter_cons]
    | none =>
      by_cases hp : w.present addr = true
      · by_cases hd : w.deliverOk addr = true
        · simp [doSendLoop, hu, hp, hd, ih, List.filter_cons]
        · simp [doSendLoop, hu, hp, hd, ih, List.filter_cons]
      · simp [doSendLoop, hu, hp, ih, List.filter_cons]

/-- Claim C1: when the demux yields no recipient, `do_send` returns the
    closed error carrying the message value-identical to the input;
    when it yields many, each recipient is attempted with a duplicate
    (with the leftover envelope of a failed delivery reused, so the
    number of clones made is exactly the number of successful
    deliveries plus at most one leftover), the call is Ok if and only
    if at least one delivery succeeded, and otherwise the closed error
    carries the original message; when every duplication succeeds the
    deliveries are exactly the present recipients whose mailbox
    accepted. -/
theorem c1_do_send {α : Type} (w : SendWorld) (dup : Nat → Bool) (msg : α)
    (addrs : List Addr) :
    (addrs = [] → do_send w dup msg addrs = .error (.closed msg)) ∧
    (2 ≤ addrs.length →
      (do_send w dup msg addrs = .ok ()
        ↔ (doSendLoop w dup msg addrs initManyState).deliveries ≠ []) ∧
      ((doSendLoop w dup msg addrs initManyState).deliveries = [] →
        do_send w dup msg addrs = .error (.closed msg)) ∧
      (doSendLoop w dup msg addrs initManyState).clones
        = (doSendLoop w dup msg addrs initManyState).deliveries.length
            + leftoverCount (doSendLoop w dup msg addrs initManyState) ∧
      (doSendLoop w (fun _ => true) msg addrs initManyState).deliveries
        = addrs.filter (fun a => w.present a && w.deliverOk a)) := by
  constructor
  · rintro rfl
    rfl
  · intro hlen
    match addrs, hlen with
    | a :: b :: rest, _ =>
      refine ⟨?_, ?_, ?_, ?_⟩
      · unfold do_send
        by_cases h : (doSendLoop w dup msg (a :: b :: rest) initManyState).deliveries = []
        · simp [h]
        · simp [h, List.isEmpty_iff]
      · intro h
        unfold do_send
        simp [h]
      · exact doSendLoop_clones w dup msg _ initManyState rfl
      · simpa using doSendLoop_deliveries_dup_true w msg (a :: b :: rest) initManyState

/-- Claim C1 witness: the empty-recipient case at a concrete world and
    message, and the many-recipient case on two recipients of which
    only the second delivers. -/
theorem c1_do_send_witness :
    (do_send ⟨fun _ => true, fun a => a == 11⟩ (fun _ => true) (5 : Nat) []
      = .error (.closed 5)) ∧
    (do_send ⟨fun _ => true, fun a => a == 11⟩ (fun _ => true) (5 : Nat) [10, 11] = .ok ()
      ↔ (doSendLoop ⟨fun _ => true, fun a => a == 11⟩ (fun _ => true) 5 [10, 11]
          initManyState).deliveries ≠ []) := by
  refine ⟨(c1_do_send ⟨fun _ => true, fun a => a == 11⟩ (fun _ => true) 5 []).1 rfl, ?_⟩
  exact ((c1_do_send ⟨fun _ => true, fun a => a == 11⟩ (fun _ => true) 5 [10, 11]).2
    (by decide)).1

/-! ## Context: `RequestBuilder::<Any>::resolve`
    (src/elfo-core/src/context.rs, lines 517-554) -/

/-- `RequestError` (errors.rs): send failure carrying the message back,
    or every recipient dropped the token. -/
inductive RequestErr (α : Type) where
  | closed (msg : α)
  | ignored
  deriving DecidableEq, Repr

/-- One event observed by a pending request slot: a recipient responded
    with a value, or a recipient dropped its live token (counted as
    Ignored). -/
inductive SlotEvent (β : Type) where
  | response (a : β)
  | dropped
  deriving DecidableEq, Repr

/-- Modelled from the spec: `request_table.rs` is not among the
    sources. Per spec §3 (Request Table) and §4.4, an Any-mode slot
    appends an absent entry for each dropped token and is completed by
    the first response, after which later responses are discarded
    silently; `wait` then yields the collected vector of optional
    envelopes. -/
def anyCollect {β : Type} : List (SlotEvent β) → List (Option β)
  | [] => []
  | .dropped :: rest => none :: anyCollect rest
  | .response a :: _ => [some a]

/-- The first response among the slot events, if any. -/
def firstResponse {β : Type} : List (SlotEvent β) → Option β
  | [] => none
  | .dropped :: rest => firstResponse rest
  | .response a :: _ => some a

/-- Embedding of `RequestBuilder::<Any>::resolve` after the token was
    issued (context.rs, lines 518-553): a failed send returns the
    closed error carrying the message; otherwise the awaited vector is
    popped from the back (`data.pop()`), a present entry is the Ok
    response and anything else is Ignored. -/
def resolveAny {α β : Type} (sendRes : Except (SendErr α) Unit)
    (data : List (Option β)) : Except (RequestErr α) β :=
  match sendRes with
  | .error (.closed m) => .error (.closed m)
  | .ok () =>
    match data.getLast? with
    | some (some e) => .ok e
    | some none => .error .ignored
    | none => .error .ignored

theorem anyCollect_getLast {β : Type} (events : List (SlotEvent β)) :
    (anyCollect events).getLast? = (firstResponse events).map some
      ∨ ((anyCollect events).getLast? = some none ∧ firstResponse events = none) := by
  induction events with
  | nil => left; rfl
  | cons e rest ih =>
    cases e with
    | response a => left; rfl
    | dropped =>
      cases hr : anyCollect (β := β) rest with
      | nil =>
        cases rest with
        | nil => right; simp [anyCollect, firstResponse]
        | cons f fs =>
          cases f <;> simp [anyCollect] at hr
      | cons o os =>
        have hflat : (anyCollect (SlotEvent.dropped :: rest)).getLast?
            = (anyCollect (β := β) rest).getLast? := by
          simp [anyCollect, hr, List.getLast?_cons_cons]
        have hfr : firstResponse (SlotEvent.dropped :: rest)
            = firstResponse (β := β) rest := rfl
        rw [hflat, hfr]
        exact ih

/-- Every collected entry before the first response is absent, and an
    absent-only vector corresponds to no response. -/
theorem anyCollect_all_none {β : Type} (events : List (SlotEvent β)) :
    (∀ o ∈ anyCollect events, o = none) ↔ firstResponse events = none := by
  induction events with
  | nil => simp [anyCollect, firstResponse]
  | cons e rest ih =>
    cases e with
    | response a => simp [anyCollect, firstResponse]
    | dropped => simpa [anyCollect, firstResponse] using ih

/-- Claim C2: after a successful send, an Any request resolves to the
    first non-absent response as Ok; it resolves to Ignored exactly
    when every entry of the awaited vector is absent; and later
    responses after the first are discarded silently (events after the
    first response do not change the collected vector). -/
theorem c2_resolve_any {α β : Type} (events pre post : List (SlotEvent β)) (b : β) :
    (∀ a : β, resolveAny (α := α) (.ok ()) (anyCollect events) = .ok a
      ↔ firstResponse events = some a) ∧
    (resolveAny (α := α) (.ok ()) (anyCollect events) = .error .ignored
      ↔ ∀ o ∈ anyCollect events, o = none) ∧
    ((∀ e ∈ pre, e = SlotEvent.dropped) →
      anyCollect (pre ++ SlotEvent.response b :: post)
        = anyCollect (pre ++ [SlotEvent.response b])) := by
  refine ⟨fun a => ?_, ?_, fun hpre => ?_⟩
  · rcases anyCollect_getLast events with h | ⟨h1, h2⟩
    · cases hf : firstResponse events <;> simp_all [resolveAny]
    · simp_all [resolveAny]
  · rw [anyCollect_all_none]
    rcases anyCollect_getLast events with h | ⟨h1, h2⟩
    · cases hf : firstResponse events <;> simp_all [resolveAny]
    · simp_all [resolveAny]
  · induction pre with
    | nil => rfl
    | cons e es ih =>
      have he : e = SlotEvent.dropped := hpre e (by simp)
      subst he
      have ihh := ih (fun x hx => hpre x (by simp [hx]))
      simp [anyCollect, ihh]

/-- Claim C2 witness: one dropped token followed by a response resolves
    to that response, and events past the first response are ignored in
    a concrete run. -/
theorem c2_resolve_any_witness :
    (resolveAny (α := Nat) (.ok ())
        (anyCollect [SlotEvent.dropped, SlotEvent.response (7 : Nat)]) = .ok 7
      ↔ firstResponse [SlotEvent.dropped, SlotEvent.response (7 : Nat)] = some 7) ∧
    anyCollect ([SlotEvent.dropped]
        ++ SlotEvent.response (7 : Nat) :: [SlotEvent.response 9])
      = anyCollect ([SlotEvent.dropped] ++ [SlotEvent.response (7 : Nat)]) := by
  constructor
  · exact (c2_resolve_any (α := Nat)
      [SlotEvent.dropped, SlotEvent.response 7] [] [] 7).1 7
  · exact (c2_resolve_any (α := Nat)
      [SlotEvent.dropped, SlotEvent.response 7] [SlotEvent.dropped]
      [SlotEvent.response 9] 7).2.2 (by decide)

/-! ## Supervisor: `do_handle` and `handle`
    (src/elfo-core/src/supervisor.rs, lines 51-148) -/

/-- The outcome of `mailbox.try_send` on a given actor: accepted, full
    (the envelope is returned), or closed (the envelope is returned). -/
inductive TryResult where
  | ok
  | full
  | closed
  deriving DecidableEq, Repr

/-- A stored actor object as `do_handle` sees it: its address and the
    behaviour of its mailbox for the handled envelope. -/
structure SupObj where
  addr : Addr
  tryRes : TryResult
  deriving DecidableEq, Repr

/-- `RouteReport` (supervisor.rs, lines 223-228). -/
inductive RouteReport (α : Type) where
  | done
  | closed (env : α)
  | wait (addr : Addr) (env : α)
  | waitAll (someone : Bool) (waiters : List (Addr × α))
  deriving DecidableEq, Repr

/-- `Outcome` of the router (routers.rs as used by supervisor.rs). -/
inductive Outcome (K : Type) where
  | unicast (key : K)
  | broadcast
  | discard
  deriving DecidableEq, Repr

/-- First object stored under a key (`objects.get(&key)`); the object
    map is modelled as an association list. -/
def lookupObj {K : Type} [DecidableEq K] : List (K × SupObj) → K → Option SupObj
  | [], _ => none
  | (k, o) :: rest, key => if k = key then some o else lookupObj rest key

/-- The report produced by try-sending into one object's mailbox
    (supervisor.rs, lines 107-111). -/
def reportOf {α : Type} (obj : SupObj) (env : α) : RouteReport α :=
  match obj.tryRes with
  | .ok => .done
  | .full => .wait obj.addr env
  | .closed => .closed env

/-- Embedding of the `Outcome::Unicast(key)` arm of
    `Supervisor::do_handle` (supervisor.rs, lines 98-111): look the key
    up; when missing, insert the freshly spawned actor under the key
    (the `entry(key).or_insert_with(spawn)` path); then try-send into
    the target's mailbox. `spawnObj` models `Supervisor::spawn`. -/
def doHandleUnicast {K α : Type} [DecidableEq K] (spawnObj : K → SupObj)
    (objects : List (K × SupObj)) (key : K) (env : α) :
    RouteReport α × List (K × SupObj) :=
  match lookupObj objects key with
  | some obj => (reportOf obj env, objects)
  | none =>
    let obj := spawnObj key
    (reportOf obj env, (key, obj) :: objects)

theorem lookupObj_eq_none {K : Type} [DecidableEq K]
    (objects : List (K × SupObj)) (key : K) :
    lookupObj objects key = none ↔ key ∉ objects.map Prod.fst := by
  induction objects with
  | nil => simp [lookupObj]
  | cons p rest ih =>
    by_cases h : p.1 = key
    · simp [lookupObj, h]
    · simp [lookupObj, h, ih, Ne.symm h]

/-- Claim C3: under `Unicast(key)`, a missing key gets exactly one
    freshly spawned actor inserted under it (so a key-unique object map
    stays key-unique and afterwards holds the spawned object under the
    key), an existing object leaves the map untouched, and the report
    is Done on a successful try-send, Wait(addr, envelope) on a full
    mailbox and Closed(envelope) on a closed mailbox. -/
theorem c3_do_handle_unicast {K α : Type} [DecidableEq K] (spawnObj : K → SupObj)
    (objects : List (K × SupObj)) (key : K) (env : α) :
    (lookupObj objects key = none →
      (doHandleUnicast spawnObj objects key env).2 = (key, spawnObj key) :: objects ∧
      (doHandleUnicast spawnObj objects key env).1 = reportOf (spawnObj key) env ∧
      lookupObj (doHandleUnicast spawnObj objects key env).2 key = some (spawnObj key)) ∧
    (∀ o : SupObj, lookupObj objects key = some o →
      (doHandleUnicast spawnObj objects key env).2 = objects ∧
      (doHandleUnicast spawnObj objects key env).1 = reportOf o env) ∧
    ((objects.map Prod.fst).Nodup →
      ((doHandleUnicast spawnObj objects key env).2.map Prod.fst).Nodup) ∧
    (∀ o : SupObj,
      (o.tryRes = .ok → reportOf o env = .done) ∧
      (o.tryRes = .full → reportOf o env = RouteReport.wait o.addr env) ∧
      (o.tryRes = .closed → reportOf o env = .closed env)) := by
  refine ⟨fun hn => ⟨?_, ?_, ?_⟩, fun o ho => ⟨?_, ?_⟩, fun hnd => ?_, fun o => ⟨?_, ?_, ?_⟩⟩
  · simp [doHandleUnicast, hn]
  · simp [doHandleUnicast, hn]
  · simp [doHandleUnicast, hn, lookupObj]
  · simp [doHandleUnicast, ho]
  · simp [doHandleUnicast, ho]
  · cases hl : lookupObj objects key with
    | some o => simpa [doHandleUnicast, hl] using hnd
    | none =>
      have hk := (lookupObj_eq_none objects key).mp hl
      simp [doHandleUnicast, hl, hnd, hk]
  all_goals intro h
  all_goals simp [reportOf, h]

/-- Claim C3 witness: a fresh key on an empty map gets the spawned
    actor inserted and, its mailbox being full, reports Wait. -/
theorem c3_do_handle_unicast_witness :
    (doHandleUnicast (K := Nat) (α := Nat) (fun k => ⟨k + 100, .full⟩) [] 4 9).2
      = [(4, ⟨104, .full⟩)] ∧
    (doHandleUnicast (K := Nat) (α := Nat) (fun k => ⟨k + 100, .full⟩) [] 4 9).1
      = reportOf ⟨104, .full⟩ 9 := by
  have h := (c3_do_handle_unicast (K := Nat) (α := Nat)
    (fun k => ⟨k + 100, .full⟩) [] 4 9).1 rfl
  exact ⟨h.1, h.2.1⟩

/-- State of the `Outcome::Broadcast` loop (supervisor.rs, lines
    114-134): accumulated waiters, whether some mailbox accepted, the
    addresses delivered to, and the number of duplicates already made. -/
structure BcastSt (α : Type) where
  waiters : List (Addr × α)
  someone : Bool
  delivered : List Addr
  dups : Nat
  deriving DecidableEq, Repr

/-- Embedding of the broadcast loop (supervisor.rs, lines 118-134):
    each iteration duplicates the envelope (`dup i` tells whether the
    i-th duplication succeeds; failure aborts the loop, the second
    component of the result) and try-sends the duplicate: a full
    mailbox's envelope is accumulated as a waiter, a closed mailbox is
    dropped silently. -/
def broadcastLoop {α : Type} (dup : Nat → Bool) (env : α) :
    List SupObj → BcastSt α → BcastSt α × Bool
  | [], st => (st, false)
  | obj :: rest, st =>
    if dup st.dups then
      let st1 : BcastSt α := { st with dups := st.dups + 1 }
      match obj.tryRes with
      | .ok =>
        broadcastLoop dup env rest
          { st1 with someone := true, delivered := st1.delivered ++ [obj.addr] }
      | .full =>
        broadcastLoop dup env rest
          { st1 with waiters := st1.waiters ++ [(obj.addr, env)] }
      | .closed => broadcastLoop dup env rest st1
    else (st, true)

/-- The initial broadcast state. -/
def initBcastSt {α : Type} : BcastSt α := ⟨[], false, [], 0⟩

/-- Embedding of the `Outcome::Broadcast` arm of `do_handle`
    (supervisor.rs, lines 113-145): run the loop; on a failed
    duplication report Done; otherwise report WaitAll when waiters
    accumulated, Done when some send succeeded, and Closed carrying the
    original envelope when none did. Also returns the addresses the
    envelope was delivered to. -/
def doHandleBroadcast {α : Type} (dup : Nat → Bool) (objects : List SupObj) (env : α) :
    RouteReport α × List Addr :=
  let r := broadcastLoop dup env objects initBcastSt
  if r.2 then (.done, r.1.delivered)
  else if r.1.waiters.isEmpty then
    if r.1.someone then (.done, r.1.delivered) else (.closed env, r.1.delivered)
  else (.waitAll r.1.someone r.1.waiters, r.1.delivered)

theorem broadcastLoop_dup_true {α : Type} (env : α) (objs : List SupObj)
    (st : BcastSt α) :
    broadcastLoop (fun _ => true) env objs st
      = (⟨st.waiters ++ (objs.filter fun o => decide (o.tryRes = .full)).map
            (fun o => (o.addr, env)),
          st.someone || (objs.any fun o => decide (o.tryRes = .ok)),
          st.delivered ++ (objs.filter fun o => decide (o.tryRes = .ok)).map
            (fun o => o.addr),
          st.dups + objs.length⟩, false) := by
  induction objs generalizing st with
  | nil => simp [broadcastLoop]
  | cons obj rest ih =>
    cases h : obj.tryRes <;>
      simp [broadcastLoop, h, ih, List.filter_cons, List.any_cons,
        Nat.add_comm, Nat.add_assoc, Nat.add_left_comm, Bool.or_assoc,
        Bool.or_comm, Bool.or_left_comm]

theorem broadcastLoop_early_stop {α : Type} (dup : Nat → Bool) (env : α)
    (objs : List SupObj) (st : BcastSt α) (k : Nat) (hk : k < objs.length)
    (hf : dup (st.dups + k) = false) (hall : ∀ j, j < k → dup (st.dups + j) = true) :
    (broadcastLoop dup env objs st).2 = true := by
  induction objs generalizing st k with
  | nil => simp at hk
  | cons obj rest ih =>
    cases k with
    | zero =>
      have h0 : dup st.dups = false := by simpa using hf
      simp [broadcastLoop, h0]
    | succ k1 =>
      have h0 : dup st.dups = true := by simpa using hall 0 (Nat.succ_pos k1)
      have hk1 : k1 < rest.length := Nat.lt_of_succ_lt_succ hk
      cases h : obj.tryRes with
      | ok =>
        have hstep : broadcastLoop dup env (obj :: rest) st
            = broadcastLoop dup env rest ⟨st.waiters, true, st.delivered ++ [obj.addr], st.dups + 1⟩ := by
          simp [broadcastLoop, h0, h]
        rw [hstep]
        refine ih _ k1 hk1 ?_ ?_
        · rw [show st.dups + 1 + k1 = st.dups + (k1 + 1) from by omega]
          exact hf
        · intro j hj
          rw [show st.dups + 1 + j = st.dups + (j + 1) from by omega]
          exact hall (j + 1) (Nat.succ_lt_succ hj)
      | full =>
        have hstep : broadcastLoop dup env (obj :: rest) st
            = broadcastLoop dup env rest ⟨st.waiters ++ [(obj.addr, env)], st.someone, st.delivered, st.dups + 1⟩ := by
          simp [broadcastLoop, h0, h]
        rw [hstep]
        refine ih _ k1 hk1 ?_ ?_
        · rw [show st.dups + 1 + k1 = st.dups + (k1 + 1) from by omega]
          exact hf
        · intro j hj
          rw [show st.dups + 1 + j = st.dups + (j + 1) from by omega]
          exact hall (j + 1) (Nat.succ_lt_succ hj)
      | closed =>
        have hstep : broadcastLoop dup env (obj :: rest) st
            = broadcastLoop dup env rest ⟨st.waiters, st.someone, st.delivered, st.dups + 1⟩ := by
          simp [broadcastLoop, h0, h]
        rw [hstep]
        refine ih _ k1 hk1 ?_ ?_
        · rw [show st.dups + 1 + k1 = st.dups + (k1 + 1) from by omega]
          exact hf
        · intro j hj
          rw [show st.dups + 1 + j = st.dups + (j + 1) from by omega]
          exact hall (j + 1) (Nat.succ_lt_succ hj)

/-- Claim C4: under Broadcast with every duplication succeeding, one
    duplicate is made per stored object, the waiters are exactly the
    full-mailbox recipients paired with the envelope, the envelope is
    delivered exactly to the accepting recipients (closed ones are
    dropped silently), and the report is WaitAll(someone, waiters) when
    waiters remain, Done when some send succeeded and none remain, and
    Closed carrying the original envelope when no send succeeded; when
    the k-th duplication fails mid-loop the loop stops and the report
    is Done. -/
theorem c4_do_handle_broadcast {α : Type} (dup : Nat → Bool) (objs : List SupObj)
    (env : α) :
    ((broadcastLoop (fun _ => true) env objs initBcastSt).1.waiters
      = (objs.filter fun o => decide (o.tryRes = .full)).map (fun o => (o.addr, env))) ∧
    ((broadcastLoop (fun _ => true) env objs initBcastSt).1.someone
      = (objs.any fun o => decide (o.tryRes = .ok))) ∧
    ((broadcastLoop (fun _ => true) env objs initBcastSt).1.delivered
      = (objs.filter fun o => decide (o.tryRes = .ok)).map (fun o => o.addr)) ∧
    ((broadcastLoop (fun _ => true) env objs initBcastSt).1.dups = objs.length) ∧
    (((objs.filter fun o => decide (o.tryRes = .full)) = [] →
        (objs.any fun o => decide (o.tryRes = .ok)) = true →
        (doHandleBroadcast (fun _ => true) objs env).1 = .done) ∧
      ((objs.filter fun o => decide (o.tryRes = .full)) = [] →
        (objs.any fun o => decide (o.tryRes = .ok)) = false →
        (doHandleBroadcast (fun _ => true) objs env).1 = .closed env) ∧
      ((objs.filter fun o => decide (o.tryRes = .full)) ≠ [] →
        (doHandleBroadcast (fun _ => true) objs env).1
          = RouteReport.waitAll (objs.any fun o => decide (o.tryRes = .ok))
              ((objs.filter fun o => decide (o.tryRes = .full)).map
                (fun o => (o.addr, env))))) ∧
    (∀ k, k < objs.length → dup k = false → (∀ j, j < k → dup j = true) →
      (doHandleBroadcast dup objs env).1 = .done) := by
  have hloop := broadcastLoop_dup_true env objs (initBcastSt (α := α))
  refine ⟨?_, ?_, ?_, ?_, ⟨fun hw hs => ?_, fun hw hs => ?_, fun hw => ?_⟩,
    fun k hk hf hall => ?_⟩
  · rw [hloop]; simp [initBcastSt]
  · rw [hloop]; simp [initBcastSt]
  · rw [hloop]; simp [initBcastSt]
  · rw [hloop]; simp [initBcastSt]
  · simp only [doHandleBroadcast, hloop]
    simp [initBcastSt, hw, hs]
  · simp only [doHandleBroadcast, hloop]
    simp [initBcastSt, hw, hs]
  · simp only [doHandleBroadcast, hloop]
    simp [initBcastSt, hw]
  · have he := broadcastLoop_early_stop dup env objs initBcastSt k hk
      (by simpa [initBcastSt] using hf) (by simpa [initBcastSt] using hall)
    simp [doHandleBroadcast, he]

/-- Claim C4 witness: two objects, one full and one accepting, under
    always-successful duplication report WaitAll(true, [(1, env)]); a
    duplication failing at index 0 reports Done. -/
theorem c4_do_handle_broadcast_witness :
    (doHandleBroadcast (fun _ => true) [⟨1, .full⟩, ⟨2, .ok⟩] (9 : Nat)).1
      = RouteReport.waitAll true [(1, 9)] ∧
    (doHandleBroadcast (fun _ => false) [⟨1, .full⟩, ⟨2, .ok⟩] (9 : Nat)).1
      = .done := by
  constructor
  · exact (c4_do_handle_broadcast (fun _ => true) [⟨1, .full⟩, ⟨2, .ok⟩] 9).2.2.2.2.1.2.2
      (by decide)
  · exact (c4_do_handle_broadcast (fun _ => false) [⟨1, .full⟩, ⟨2, .ok⟩] 9).2.2.2.2.2
      0 (by decide) rfl (by intro j hj; simp at hj)

/-- An envelope payload as dispatched by `Supervisor::handle`
    (supervisor.rs, lines 51-94): a config message carrying an
    undecoded blob and its response token, a config message re-stamped
    with the decoded config, or any other message. -/
inductive SupPayload (C α : Type) where
  | validateRaw (blob : Nat) (tok : Nat)
  | validateDecoded (cfg : C) (tok : Nat)
  | updateRaw (blob : Nat) (tok : Nat)
  | updateDecoded (cfg : C) (tok : Nat)
  | otherMsg (m : α)
  deriving DecidableEq, Repr

/-- The supervisor state touched by `handle`: the stored objects and
    the write-locked last-known config (`config: RwLock<Option<Arc<C>>>`). -/
structure SupState (K C : Type) where
  objects : List (K × SupObj)
  config : Option C

/-- Everything one `handle` call produces or changes: the route report,
    the possibly updated object map and config, the `ConfigRejected`
    responses sent through tokens, and the addresses whose mailbox
    received the envelope. -/
structure HandleOut (K C α : Type) where
  report : RouteReport (SupPayload C α)
  objects : List (K × SupObj)
  config : Option C
  rejected : List (Nat × String)
  delivered : List Addr

/-- Embedding of `Supervisor::handle` (supervisor.rs, lines 51-94).
    `ValidateConfig` decodes the blob: on success the envelope is
    re-stamped with the decoded config and broadcast, on failure the
    token receives `ConfigRejected{reason}` and the report is Done;
    `UpdateConfig` does the same but additionally stores the decoded
    config under the config lock on success; anything else is routed
    and dispatched by `do_handle`. -/
def handle {K C α : Type} [DecidableEq K] (decode : Nat → Except String C)
    (route : α → Outcome K) (spawnObj : K → SupObj) (dup : Nat → Bool)
    (st : SupState K C) (env : SupPayload C α) : HandleOut K C α :=
  match env with
  | .validateRaw blob tok =>
    match decode blob with
    | .ok cfg =>
      let r := doHandleBroadcast dup (st.objects.map Prod.snd)
        (SupPayload.validateDecoded cfg tok)
      ⟨r.1, st.objects, st.config, [], r.2⟩
    | .error reason => ⟨.done, st.objects, st.config, [(tok, reason)], []⟩
  | .updateRaw blob tok =>
    match decode blob with
    | .ok cfg =>
      let r := doHandleBroadcast dup (st.objects.map Prod.snd)
        (SupPayload.updateDecoded cfg tok)
      ⟨r.1, st.objects, some cfg, [], r.2⟩
    | .error reason => ⟨.done, st.objects, st.config, [(tok, reason)], []⟩
  | .validateDecoded cfg tok =>
    let r := doHandleBroadcast dup (st.objects.map Prod.snd)
      (SupPayload.validateDecoded cfg tok)
    ⟨r.1, st.objects, st.config, [], r.2⟩
  | .updateDecoded cfg tok =>
    let r := doHandleBroadcast dup (st.objects.map Prod.snd)
      (SupPayload.updateDecoded cfg tok)
    ⟨r.1, st.objects, st.config, [], r.2⟩
  | .otherMsg m =>
    match route m with
    | .unicast key =>
      let r := doHandleUnicast spawnObj st.objects key (SupPayload.otherMsg m)
      ⟨r.1, r.2, st.config, [], []⟩
    | .broadcast =>
      let r := doHandleBroadcast dup (st.objects.map Prod.snd) (SupPayload.otherMsg m)
      ⟨r.1, st.objects, st.config, [], r.2⟩
    | .discard => ⟨.done, st.objects, st.config, [], []⟩

/-- Claim C5: a `ValidateConfig` or `UpdateConfig` envelope whose blob
    fails to decode makes the supervisor respond through the embedded
    token with `ConfigRejected` carrying the decoder's message, report
    Done, and deliver the envelope to no stored actor, leaving the
    object map and the stored config untouched. -/
theorem c5_config_reject {K C α : Type} [DecidableEq K] (decode : Nat → Except String C)
    (route : α → Outcome K) (spawnObj : K → SupObj) (dup : Nat → Bool)
    (st : SupState K C) (blob tok : Nat) (reason : String)
    (h : decode blob = .error reason) :
    (handle decode route spawnObj dup st (.validateRaw blob tok)
      = ⟨.done, st.objects, st.config, [(tok, reason)], []⟩) ∧
    (handle decode route spawnObj dup st (.updateRaw blob tok)
      = ⟨.done, st.objects, st.config, [(tok, reason)], []⟩) := by
  constructor <;> simp [handle, h]

/-- Claim C5 witness: a concrete always-failing decoder on a concrete
    supervisor state. -/
theorem c5_config_reject_witness :
    handle (K := Nat) (C := Nat) (α := Nat) (fun _ => .error "bad magic")
        (fun _ => Outcome.discard) (fun k => ⟨k, .ok⟩) (fun _ => true)
        ⟨[(0, ⟨3, .ok⟩)], some 5⟩ (.validateRaw 2 9)
      = ⟨.done, [(0, ⟨3, .ok⟩)], some 5, [(9, "bad magic")], []⟩ :=
  (c5_config_reject (fun _ => .error "bad magic") (fun _ => Outcome.discard)
    (fun k => ⟨k, .ok⟩) (fun _ => true) ⟨[(0, ⟨3, .ok⟩)], some 5⟩ 2 9 "bad magic" rfl).1

/-- Claim C10: handling a `ValidateConfig` envelope never modifies the
    supervisor's stored last-known config, whether the decode succeeds
    or fails; routed messages never modify it either; only an
    `UpdateConfig` whose blob decodes successfully writes the config
    lock, storing the decoded config. -/
theorem c10_validate_config_frame {K C α : Type} [DecidableEq K]
    (decode : Nat → Except String C) (route : α → Outcome K) (spawnObj : K → SupObj)
    (dup : Nat → Bool) (st : SupState K C) (blob tok : Nat) (m : α) :
    ((handle decode route spawnObj dup st (.validateRaw blob tok)).config = st.config) ∧
    ((handle decode route spawnObj dup st (.otherMsg m)).config = st.config) ∧
    ((handle decode route spawnObj dup st (.updateRaw blob tok)).config
      = match decode blob with
        | .ok cfg => some cfg
        | .error _ => st.config) := by
  refine ⟨?_, ?_, ?_⟩
  · cases h : decode blob <;> simp [handle, h]
  · cases h : route m <;> simp [handle, h]
  · cases h : decode blob <;> simp [handle, h]

end Elfo
